import Mathlib

/-!
Shallow embedding of `img2pdfConvertor/merge_pdfs.py` (functions
`natural_sort_key`, `merge_pdfs`, `find_pdfs_in_directory`) together with
proofs of the specified properties.

The filesystem and the PDF library (pypdf) are modelled abstractly: a `FS`
record says, for every path, whether it exists, what `PdfReader` yields on
it, and how writing to it behaves.  Characters are modelled at ASCII
granularity (`Char.isDigit`, `Char.toLower`), matching the Python code on
ASCII paths.
-/

namespace PdfMerge

/-! ### `natural_sort_key`

Python: `[int(text) if text.isdigit() else text.lower()
          for text in re.split(r'(\d+)', s)]`.

`re.split(r'(\d+)', s)` yields the maximal digit runs of `s` interleaved
with the (possibly empty) non-digit stretches around them, starting and
ending with a non-digit stretch. -/

/-- `re.split(r'(\d+)', ·)` on a character list: alternating non-digit /
digit runs, keeping empty non-digit stretches.  `fuel` only drives the
recursion; it is always called with `fuel = cs.length`, which suffices
because each step consumes at least one character (a nonempty digit run). -/
def splitDigitRuns : Nat → List Char → List (List Char)
  | 0, cs => [cs]
  | fuel + 1, cs =>
    let pre := cs.takeWhile (fun c => !(c.isDigit))
    let rest := cs.dropWhile (fun c => !(c.isDigit))
    match rest with
    | [] => [pre]
    | _ :: _ =>
      let dig := rest.takeWhile (fun c => c.isDigit)
      let rest2 := rest.dropWhile (fun c => c.isDigit)
      pre :: dig :: splitDigitRuns fuel rest2

/-- `int(text)` for a run of decimal digits (leading zeros allowed). -/
def digitRunVal (cs : List Char) : Nat :=
  cs.foldl (fun a c => a * 10 + (c.toNat - 48)) 0

/-- One entry of a Python sort key: either a lowered string piece or an
integer.  Python would raise `TypeError` when comparing an `int` entry with
a `str` entry, but two values of `natural_sort_key` never meet that case:
their entries alternate str/int by index parity, so same-index entries
always have the same type.  The lexicographic sum order (`inl < inr`) is
therefore a conservative total completion of Python's comparison. -/
abbrev KeyElem := Lex ((List Char) ⊕ Nat)

/-- `int(text) if text.isdigit() else text.lower()` for one split piece.
Python's `str.isdigit` is false on the empty string. -/
def keyPiece (run : List Char) : KeyElem :=
  if run ≠ [] ∧ run.all (fun c => c.isDigit) then toLex (Sum.inr (digitRunVal run))
  else toLex (Sum.inl (run.map Char.toLower))

/-- `natural_sort_key(s)` from the source. -/
def natural_sort_key (s : String) : List KeyElem :=
  (splitDigitRuns s.data.length s.data).map keyPiece

/-- Key comparison used by `input_paths.sort(key=natural_sort_key)`:
Python list/str/int comparison is exactly the lexicographic order. -/
def natLe (a b : String) : Prop :=
  natural_sort_key a ≤ natural_sort_key b

instance : DecidableRel natLe := fun a b =>
  inferInstanceAs (Decidable (natural_sort_key a ≤ natural_sort_key b))

instance : IsTotal String natLe :=
  ⟨fun a b => le_total (natural_sort_key a) (natural_sort_key b)⟩

instance : IsTrans String natLe := ⟨fun _ _ _ => le_trans⟩

/-- `input_paths.sort(key=natural_sort_key)`: Python's sort is a stable
ascending sort by key; insertion sort with the reflexive key comparison is
stable the same way. -/
def sortNat (l : List String) : List String :=
  List.insertionSort natLe l

/-! ### Abstract filesystem / PDF library model -/

/-- What `PdfReader` exposes of a successfully parsed document. -/
structure PdfDoc where
  /-- `reader.is_encrypted` -/
  encrypted : Bool
  /-- `decryptOk pw` holds iff `reader.decrypt(pw)` succeeds (does not raise). -/
  decryptOk : String → Bool
  /-- `reader.pages`: abstract page identities in document order. -/
  pages : List Nat

/-- Result of `open(path,'rb')` + `PdfReader(infile)` on a path. -/
inductive ParseResult
  /-- parsing succeeded -/
  | ok (doc : PdfDoc)
  /-- `PdfReadError` was raised -/
  | readError (msg : String)
  /-- some other exception was raised -/
  | otherError (msg : String)

/-- Behaviour of `with open(output_path,'wb') as f: merger.write(f)`. -/
inductive WriteBehavior
  /-- open and serialization both succeed -/
  | ok
  /-- `open(...,'wb')` itself raises; the path is left untouched -/
  | openFails
  /-- open succeeds (creating or truncating the file) but `merger.write` raises -/
  | writeFails
deriving DecidableEq

/-- The filesystem as `merge_pdfs` observes it. -/
structure FS where
  /-- `os.path.exists path` -/
  pathExists : String → Bool
  /-- what opening and parsing `path` as a PDF yields -/
  parse : String → ParseResult
  /-- how writing the merged document to `path` behaves -/
  write : String → WriteBehavior

/-- `path.lower().endswith('.pdf')` -/
def lowerEndsWithPdf (path : String) : Bool :=
  List.isSuffixOf ".pdf".data (path.data.map Char.toLower)

/-- `os.path.basename` for POSIX paths: the part after the last slash. -/
def basename (p : String) : String :=
  (p.splitOn "/").getLastD ""

/-! ### Per-file outcomes (spec section 3, `MergeOutcome`) -/

/-- Per-candidate outcome, as the spec names the code's branches. -/
inductive MergeOutcome
  | Merged (pageCount : Nat)
  | SkippedNotFound
  | SkippedNotPdf
  | SkippedEncryptedUndecryptable
  | SkippedEmptyOrCorrupt
  | SkippedUnexpectedError (message : String)
deriving DecidableEq

def outcomeMerged : MergeOutcome → Bool
  | .Merged _ => true
  | _ => false

/-- The classification the loop body of `merge_pdfs` applies to one path,
with the checks in source order: existence, extension, parse, encryption,
page count. -/
def classifyFile (fs : FS) (path : String) : MergeOutcome :=
  if !(fs.pathExists path) then .SkippedNotFound
  else if !(lowerEndsWithPdf path) then .SkippedNotPdf
  else
    match fs.parse path with
    | .readError e => .SkippedUnexpectedError e
    | .otherError e => .SkippedUnexpectedError e
    | .ok doc =>
      if doc.encrypted && !(doc.decryptOk "") then .SkippedEncryptedUndecryptable
      else if doc.pages.length = 0 then .SkippedEmptyOrCorrupt
      else .Merged doc.pages.length

/-- The pages a parsed document exposes (empty when parsing fails). -/
def docPages (fs : FS) (path : String) : List Nat :=
  match fs.parse path with
  | .ok doc => doc.pages
  | _ => []

/-- The pages one candidate contributes to the accumulator. -/
def contribution (fs : FS) (path : String) : List Nat :=
  if outcomeMerged (classifyFile fs path) then docPages fs path else []

/-! ### The merge loop -/

/-- Mutable state of the `for path in input_paths` loop: the `PdfWriter`
accumulator (as its page list), `pdf_files_processed`, `total_pages_added`,
and the outcome log. -/
structure LoopState where
  mergerPages : List Nat
  processed : List String
  totalPages : Nat
  outcomes : List MergeOutcome
deriving DecidableEq

def initState : LoopState := ⟨[], [], 0, []⟩

/-- The loop body of `merge_pdfs`, one path at a time, mirroring the
source's checks and `continue`s. -/
def stepFile (fs : FS) (st : LoopState) (path : String) : LoopState :=
  if !(fs.pathExists path) then
    { st with outcomes := st.outcomes ++ [.SkippedNotFound] }
  else if !(lowerEndsWithPdf path) then
    { st with outcomes := st.outcomes ++ [.SkippedNotPdf] }
  else
    match fs.parse path with
    | .readError e =>
      { st with outcomes := st.outcomes ++ [.SkippedUnexpectedError e] }
    | .otherError e =>
      { st with outcomes := st.outcomes ++ [.SkippedUnexpectedError e] }
    | .ok doc =>
      if doc.encrypted && !(doc.decryptOk "") then
        { st with outcomes := st.outcomes ++ [.SkippedEncryptedUndecryptable] }
      else if doc.pages.length = 0 then
        { st with outcomes := st.outcomes ++ [.SkippedEmptyOrCorrupt] }
      else
        { mergerPages := st.mergerPages ++ doc.pages
          processed := st.processed ++ [basename path]
          totalPages := st.totalPages + doc.pages.length
          outcomes := st.outcomes ++ [.Merged doc.pages.length] }

/-- What happened to `output_path` by the end of the call. -/
inductive OutputEffect
  /-- the output path was never successfully opened for writing -/
  | untouched
  /-- the output file holds the serialized accumulator pages -/
  | written (pages : List Nat)
  /-- the output file was created or truncated but serialization failed -/
  | clobbered
deriving DecidableEq

/-- Spec section 3 `MergeResult`. -/
structure MergeResult where
  totalPagesWritten : Nat
  processedFileNames : List String
  outcomes : List MergeOutcome
  success : Bool
deriving DecidableEq

/-- Full observable behaviour of one call to `merge_pdfs`: the result, the
final accumulator content, the effect on the output path, how many times
`merger.close()` ran, and the caller's `input_paths` list after the call
(`list.sort` mutates it in place). -/
structure MergeRun where
  result : MergeResult
  accumPages : List Nat
  outputEffect : OutputEffect
  closeCount : Nat
  finalInputPaths : List String
deriving DecidableEq

/-- The order in which the loop visits paths. -/
def mergeOrder (input_paths : List String) (sort_files : Bool) : List String :=
  if sort_files then sortNat input_paths else input_paths

/-- `merge_pdfs(input_paths, output_path, sort_files)` from the source.

Control flow of the tail: `if not pdf_files_processed: merger.close();
return False`, then `try: open/write; return True / except: return False /
finally: merger.close()`. -/
def merge_pdfs (fs : FS) (input_paths : List String) (output_path : String)
    (sort_files : Bool) : MergeRun :=
  let paths := mergeOrder input_paths sort_files
  let st := paths.foldl (stepFile fs) initState
  if st.processed = [] then
    { result := ⟨st.totalPages, st.processed, st.outcomes, false⟩
      accumPages := st.mergerPages
      outputEffect := .untouched
      closeCount := 1
      finalInputPaths := paths }
  else
    match fs.write output_path with
    | .ok =>
      { result := ⟨st.totalPages, st.processed, st.outcomes, true⟩
        accumPages := st.mergerPages
        outputEffect := .written st.mergerPages
        closeCount := 1
        finalInputPaths := paths }
    | .openFails =>
      { result := ⟨st.totalPages, st.processed, st.outcomes, false⟩
        accumPages := st.mergerPages
        outputEffect := .untouched
        closeCount := 1
        finalInputPaths := paths }
    | .writeFails =>
      { result := ⟨st.totalPages, st.processed, st.outcomes, false⟩
        accumPages := st.mergerPages
        outputEffect := .clobbered
        closeCount := 1
        finalInputPaths := paths }

/-! ### `find_pdfs_in_directory` -/

/-- Directory view of the filesystem. -/
structure DirFS where
  /-- `os.path.isdir` -/
  isDir : String → Bool
  /-- `os.listdir`: immediate entry names, in filesystem enumeration order -/
  listdir : String → List String

inductive DiscoverError
  /-- the `sys.exit(1)` taken when the path is not a directory -/
  | DirectoryNotFound
deriving DecidableEq

/-- `os.path.join` for POSIX paths and relative second components (as
`os.listdir` returns): insert a slash unless the directory already ends
in one. -/
def joinPath (d f : String) : String :=
  if d.data.getLast? = some '/' then d ++ f else d ++ "/" ++ f

/-- `find_pdfs_in_directory(directory_path)` from the source. -/
def find_pdfs_in_directory (dfs : DirFS) (directory_path : String) :
    Except DiscoverError (List String) :=
  if !(dfs.isDir directory_path) then .error .DirectoryNotFound
  else
    .ok ((dfs.listdir directory_path).foldl
      (fun acc filename =>
        if lowerEndsWithPdf filename then acc ++ [joinPath directory_path filename]
        else acc) [])

/-! ### Concrete fixtures for witness instances -/

/-- A two-page unencrypted document. -/
def sampleDoc : PdfDoc := ⟨false, fun _ => true, [10, 11]⟩

/-- An encrypted document whose empty-password decryption fails. -/
def lockedDoc : PdfDoc := ⟨true, fun _ => false, [20]⟩

/-- Concrete filesystem: `a.pdf` parses to `sampleDoc`, `locked.pdf` to
`lockedDoc`, `notes.txt` exists but is not a PDF, everything else is
missing; output writes succeed. -/
def sampleFS : FS where
  pathExists p := p == "a.pdf" || p == "locked.pdf" || p == "notes.txt"
  parse p :=
    if p == "a.pdf" then .ok sampleDoc
    else if p == "locked.pdf" then .ok lockedDoc
    else .readError "bad"
  write _ := .ok

/-- Same filesystem but serialization to the output path fails after the
file has been opened (created or truncated). -/
def sampleFSWriteFails : FS :=
  { sampleFS with write := fun _ => .writeFails }

/-- Concrete directory view: `docs` holds `b.PDF`, `x.txt`, `a.pdf` in that
enumeration order; nothing else is a directory. -/
def sampleDir : DirFS where
  isDir d := d == "docs"
  listdir d := if d == "docs" then ["b.PDF", "x.txt", "a.pdf"] else []

/-- Paths of `l` whose outcome is `Merged`, in the order of `l`. -/
def mergedList (fs : FS) (l : List String) : List String :=
  l.filter (fun p => outcomeMerged (classifyFile fs p))

/-! ### Characterization of the loop and of `merge_pdfs` -/

theorem stepFile_eq (fs : FS) (st : LoopState) (path : String) :
    stepFile fs st path =
      { mergerPages := st.mergerPages ++ contribution fs path
        processed := st.processed ++
          (if outcomeMerged (classifyFile fs path) then [basename path] else [])
        totalPages := st.totalPages + (contribution fs path).length
        outcomes := st.outcomes ++ [classifyFile fs path] } := by
  rcases hex : fs.pathExists path with _ | _
  · have hcl : classifyFile fs path = .SkippedNotFound := by simp [classifyFile, hex]
    simp [stepFile, hex, hcl, contribution, outcomeMerged]
  · rcases hpdf : lowerEndsWithPdf path with _ | _
    · have hcl : classifyFile fs path = .SkippedNotPdf := by simp [classifyFile, hex, hpdf]
      simp [stepFile, hex, hpdf, hcl, contribution, outcomeMerged]
    · rcases hp : fs.parse path with doc | e | e
      · by_cases henc : (doc.encrypted && !(doc.decryptOk "")) = true
        · have hcl : classifyFile fs path = .SkippedEncryptedUndecryptable := by
            simp [classifyFile, hex, hpdf, hp, henc]
          simp [stepFile, hex, hpdf, hp, henc, hcl, contribution, outcomeMerged]
        · by_cases hz : doc.pages.length = 0
          · have hcl : classifyFile fs path = .SkippedEmptyOrCorrupt := by
              simp [classifyFile, hex, hpdf, hp, henc, hz]
            simp [stepFile, hex, hpdf, hp, henc, hz, hcl, contribution, outcomeMerged]
          · have hcl : classifyFile fs path = .Merged doc.pages.length := by
              simp [classifyFile, hex, hpdf, hp, henc, hz]
            simp [stepFile, hex, hpdf, hp, henc, hz, hcl, contribution, outcomeMerged,
              docPages]
      · have hcl : classifyFile fs path = .SkippedUnexpectedError e := by
          simp [classifyFile, hex, hpdf, hp]
        simp [stepFile, hex, hpdf, hp, hcl, contribution, outcomeMerged]
      · have hcl : classifyFile fs path = .SkippedUnexpectedError e := by
          simp [classifyFile, hex, hpdf, hp]
        simp [stepFile, hex, hpdf, hp, hcl, contribution, outcomeMerged]

theorem foldl_step (fs : FS) (l : List String) (st : LoopState) :
    l.foldl (stepFile fs) st =
      { mergerPages := st.mergerPages ++ (l.map (contribution fs)).flatten
        processed := st.processed ++
          (l.filter (fun p => outcomeMerged (classifyFile fs p))).map basename
        totalPages := st.totalPages + ((l.map (contribution fs)).flatten).length
        outcomes := st.outcomes ++ l.map (classifyFile fs) } := by
  induction l generalizing st with
  | nil => simp
  | cons p l ih =>
    rw [List.foldl_cons, stepFile_eq, ih]
    by_cases h : outcomeMerged (classifyFile fs p) = true <;>
      simp [h, List.filter_cons, Nat.add_assoc, List.append_assoc]

theorem merge_outcomes (fs : FS) (l : List String) (out : String) (s : Bool) :
    (merge_pdfs fs l out s).result.outcomes = (mergeOrder l s).map (classifyFile fs) := by
  simp only [merge_pdfs, foldl_step, initState]
  split
  · simp
  · split <;> simp

theorem merge_accumPages (fs : FS) (l : List String) (out : String) (s : Bool) :
    (merge_pdfs fs l out s).accumPages =
      ((mergeOrder l s).map (contribution fs)).flatten := by
  simp only [merge_pdfs, foldl_step, initState]
  split
  · simp
  · split <;> simp

theorem merge_processed (fs : FS) (l : List String) (out : String) (s : Bool) :
    (merge_pdfs fs l out s).result.processedFileNames =
      (mergedList fs (mergeOrder l s)).map basename := by
  simp only [merge_pdfs, foldl_step, initState, mergedList]
  split
  · simp
  · split <;> simp

theorem merge_finalInputPaths (fs : FS) (l : List String) (out : String) (s : Bool) :
    (merge_pdfs fs l out s).finalInputPaths = mergeOrder l s := by
  simp only [merge_pdfs, foldl_step, initState]
  split
  · simp
  · split <;> simp

theorem merge_closeCount (fs : FS) (l : List String) (out : String) (s : Bool) :
    (merge_pdfs fs l out s).closeCount = 1 := by
  simp only [merge_pdfs, foldl_step, initState]
  split
  · simp
  · split <;> simp

theorem merge_success_iff (fs : FS) (l : List String) (out : String) (s : Bool) :
    (merge_pdfs fs l out s).result.success = true ↔
      mergedList fs (mergeOrder l s) ≠ [] ∧ fs.write out = .ok := by
  simp only [merge_pdfs, foldl_step, initState, mergedList]
  split
  · rename_i h
    simp only [List.nil_append, List.map_eq_nil_iff] at h
    simp only [Bool.false_eq_true, false_iff, not_and]
    intro hne
    exact absurd h hne
  · rename_i h
    simp only [List.nil_append, List.map_eq_nil_iff] at h
    rcases hw : fs.write out <;>
      simp only [hw, Bool.false_eq_true, false_iff, true_iff, not_and, ne_eq] <;>
      [exact ⟨h, trivial⟩; (intro hne; simp); (intro hne; simp)]

theorem merge_effect_untouched (fs : FS) (l : List String) (out : String) (s : Bool)
    (h : mergedList fs (mergeOrder l s) = []) :
    (merge_pdfs fs l out s).outputEffect = .untouched := by
  simp only [merge_pdfs, foldl_step, initState]
  split
  · simp
  · rename_i h2
    simp only [List.nil_append] at h2
    exact absurd (by simpa [mergedList] using h) h2

theorem merge_effect_writeFails (fs : FS) (l : List String) (out : String) (s : Bool)
    (h : mergedList fs (mergeOrder l s) ≠ []) (hw : fs.write out = .writeFails) :
    (merge_pdfs fs l out s).outputEffect = .clobbered := by
  simp only [merge_pdfs, foldl_step, initState]
  split
  · rename_i h2
    simp only [List.nil_append] at h2
    exact absurd h2 (by simpa [mergedList] using h)
  · rcases hw2 : fs.write out <;> simp_all

theorem merge_effect_ok (fs : FS) (l : List String) (out : String) (s : Bool)
    (h : mergedList fs (mergeOrder l s) ≠ []) (hw : fs.write out = .ok) :
    (merge_pdfs fs l out s).outputEffect =
      .written ((mergeOrder l s).map (contribution fs)).flatten := by
  simp only [merge_pdfs, foldl_step, initState]
  split
  · rename_i h2
    simp only [List.nil_append] at h2
    exact absurd h2 (by simpa [mergedList] using h)
  · rcases hw2 : fs.write out <;> simp_all

theorem flatten_contribution (fs : FS) (l : List String) :
    (l.map (contribution fs)).flatten = ((mergedList fs l).map (docPages fs)).flatten := by
  induction l with
  | nil => rfl
  | cons p l ih =>
    by_cases h : outcomeMerged (classifyFile fs p) = true <;>
      simp [mergedList, contribution, h, List.filter_cons, ih]

theorem any_merged_iff (fs : FS) (l : List String) :
    ((l.map (classifyFile fs)).any outcomeMerged = true) ↔ mergedList fs l ≠ [] := by
  simp [mergedList, List.any_map, List.filter_eq_nil_iff, Function.comp]

theorem discover_foldl (d : String) (l : List String) (acc : List String) :
    l.foldl
        (fun acc filename =>
          if lowerEndsWithPdf filename then acc ++ [joinPath d filename] else acc) acc
      = acc ++ (l.filter lowerEndsWithPdf).map (joinPath d) := by
  induction l generalizing acc with
  | nil => simp
  | cons f l ih =>
    by_cases h : lowerEndsWithPdf f <;> simp [h, ih, List.filter_cons]

/-! ### The claimed properties -/

/-- C1: the accumulated page sequence of a merge run is the concatenation of
the page sequences of exactly the files whose outcome is `Merged`, in the
(possibly natural-sorted) input order; files with any skip outcome
contribute no pages; and on success the output file holds exactly that
sequence. -/
theorem merged_page_order (fs : FS) (paths : List String) (out : String) (s : Bool) :
    (merge_pdfs fs paths out s).accumPages =
      ((mergedList fs (mergeOrder paths s)).map (docPages fs)).flatten
    ∧ (∀ p, outcomeMerged (classifyFile fs p) = false → contribution fs p = [])
    ∧ ((merge_pdfs fs paths out s).result.success = true →
        (merge_pdfs fs paths out s).outputEffect =
          .written (((mergedList fs (mergeOrder paths s)).map (docPages fs)).flatten)) := by
  refine ⟨?_, ?_, ?_⟩
  · rw [merge_accumPages, flatten_contribution]
  · intro p h
    simp [contribution, h]
  · intro hs
    obtain ⟨hne, hw⟩ := (merge_success_iff fs paths out s).mp hs
    rw [merge_effect_ok fs paths out s hne hw, flatten_contribution]

/-- Witness for C1: merging a two-page `a.pdf` with a skipped `notes.txt`
writes exactly the two pages of `a.pdf`, in order. -/
theorem merged_page_order_witness :
    (merge_pdfs sampleFS ["a.pdf", "notes.txt"] "out.pdf" false).outputEffect =
      .written [10, 11] := by
  have h := merged_page_order sampleFS ["a.pdf", "notes.txt"] "out.pdf" false
  have hx := h.2.2 (by decide)
  rw [hx]
  decide

/-- C2: `success` is true iff at least one outcome is `Merged` and the write
to the output path completes without error; and when no file is merged the
call returns `success = false` and leaves the output path untouched. -/
theorem merge_success_characterization (fs : FS) (paths : List String) (out : String)
    (s : Bool) :
    ((merge_pdfs fs paths out s).result.success = true ↔
      ((merge_pdfs fs paths out s).result.outcomes.any outcomeMerged = true
        ∧ fs.write out = .ok))
    ∧ ((merge_pdfs fs paths out s).result.outcomes.any outcomeMerged = false →
        (merge_pdfs fs paths out s).result.success = false
          ∧ (merge_pdfs fs paths out s).outputEffect = .untouched) := by
  constructor
  · rw [merge_success_iff, merge_outcomes, any_merged_iff]
  · intro h
    rw [merge_outcomes] at h
    have hnil : mergedList fs (mergeOrder paths s) = [] := by
      by_contra hne
      have h2 := (any_merged_iff fs (mergeOrder paths s)).mpr hne
      rw [h] at h2
      cases h2
    constructor
    · have := (merge_success_iff fs paths out s).not.mpr (by simp [hnil])
      simpa using this
    · exact merge_effect_untouched fs paths out s hnil

/-- Witness for C2: with one nonexistent input path the run fails and the
output path stays untouched. -/
theorem merge_success_characterization_witness :
    (merge_pdfs sampleFS ["missing.pdf"] "out.pdf" false).result.success = false
      ∧ (merge_pdfs sampleFS ["missing.pdf"] "out.pdf" false).outputEffect = .untouched :=
  (merge_success_characterization sampleFS ["missing.pdf"] "out.pdf" false).2 (by decide)

/-- C3: with `sort_files = true` the paths are processed in natural-sort
order (digit runs numeric, non-digit runs case-insensitive), and on the
concrete input `["file10.pdf", "file2.pdf", "file1.pdf"]` that order is
`["file1.pdf", "file2.pdf", "file10.pdf"]`. -/
theorem sort_natural_order (fs : FS) (paths : List String) (out : String) :
    (merge_pdfs fs paths out true).result.outcomes = (sortNat paths).map (classifyFile fs)
    ∧ mergeOrder paths true = sortNat paths
    ∧ sortNat ["file10.pdf", "file2.pdf", "file1.pdf"]
        = ["file1.pdf", "file2.pdf", "file10.pdf"] := by
  refine ⟨?_, rfl, by decide⟩
  simpa [mergeOrder] using merge_outcomes fs paths out true

/-- C4: an encrypted document whose empty-password decryption fails gets the
outcome `SkippedEncryptedUndecryptable` and contributes no pages; and the
classification consults the decryption oracle at the empty password only:
a document behaving the same at the empty password (whatever it does at
every other password) is classified the same. -/
theorem encrypted_empty_password_only (fs : FS) (path : String) (doc : PdfDoc)
    (hex : fs.pathExists path = true) (hpdf : lowerEndsWithPdf path = true)
    (hp : fs.parse path = .ok doc) (henc : doc.encrypted = true)
    (hno : doc.decryptOk "" = false) :
    classifyFile fs path = .SkippedEncryptedUndecryptable
    ∧ contribution fs path = []
    ∧ ∀ (doc2 : PdfDoc), doc2.encrypted = doc.encrypted →
        doc2.decryptOk "" = doc.decryptOk "" →
        ∀ (fs2 : FS), fs2.pathExists path = fs.pathExists path →
          fs2.parse path = .ok doc2 →
          classifyFile fs2 path = classifyFile fs path := by
  have hcl : classifyFile fs path = .SkippedEncryptedUndecryptable := by
    simp [classifyFile, hex, hpdf, hp, henc, hno]
  refine ⟨hcl, by simp [contribution, hcl, outcomeMerged], ?_⟩
  intro doc2 h2enc h2dec fs2 h2ex h2p
  rw [hcl]
  simp [classifyFile, h2ex, hex, hpdf, h2p, h2enc, henc, h2dec, hno]

/-- Witness for C4: the locked one-page document is skipped as encrypted and
contributes nothing. -/
theorem encrypted_empty_password_only_witness :
    classifyFile sampleFS "locked.pdf" = .SkippedEncryptedUndecryptable
      ∧ contribution sampleFS "locked.pdf" = [] := by
  have h := encrypted_empty_password_only sampleFS "locked.pdf" lockedDoc
    (by rfl) (by rfl) (by rfl) (by rfl) (by rfl)
  exact ⟨h.1, h.2.1⟩

/-- C5: every candidate receives exactly one outcome and processing
continues through the whole list (no abort); the five skip conditions are
checked in source order (existence, extension, parse, encryption, page
count) and each yields its outcome; and a path's outcome depends only on
the filesystem's view of that path, so a bad file elsewhere cannot change
it. -/
theorem per_file_recovery (fs : FS) (paths : List String) (out : String) (s : Bool)
    (path : String) :
    ((merge_pdfs fs paths out s).result.outcomes =
        (mergeOrder paths s).map (classifyFile fs))
    ∧ (fs.pathExists path = false → classifyFile fs path = .SkippedNotFound)
    ∧ (fs.pathExists path = true → lowerEndsWithPdf path = false →
        classifyFile fs path = .SkippedNotPdf)
    ∧ (∀ e, fs.pathExists path = true → lowerEndsWithPdf path = true →
        (fs.parse path = .readError e ∨ fs.parse path = .otherError e) →
        classifyFile fs path = .SkippedUnexpectedError e)
    ∧ (∀ doc : PdfDoc, fs.pathExists path = true → lowerEndsWithPdf path = true →
        fs.parse path = .ok doc → doc.encrypted = true → doc.decryptOk "" = false →
        classifyFile fs path = .SkippedEncryptedUndecryptable)
    ∧ (∀ doc : PdfDoc, fs.pathExists path = true → lowerEndsWithPdf path = true →
        fs.parse path = .ok doc → (doc.encrypted = false ∨ doc.decryptOk "" = true) →
        doc.pages = [] → classifyFile fs path = .SkippedEmptyOrCorrupt)
    ∧ (∀ fs2 : FS, fs2.pathExists path = fs.pathExists path →
        fs2.parse path = fs.parse path →
        classifyFile fs2 path = classifyFile fs path) := by
  refine ⟨merge_outcomes fs paths out s, ?_, ?_, ?_, ?_, ?_, ?_⟩
  · intro hex
    simp [classifyFile, hex]
  · intro hex hpdf
    simp [classifyFile, hex, hpdf]
  · rintro e hex hpdf (hp | hp) <;> simp [classifyFile, hex, hpdf, hp]
  · intro doc hex hpdf hp henc hno
    simp [classifyFile, hex, hpdf, hp, henc, hno]
  · rintro doc hex hpdf hp (hde | hde) hz <;> simp [classifyFile, hex, hpdf, hp, hde, hz]
  · intro fs2 h2ex h2p
    simp [classifyFile, h2ex, h2p]

/-- Witness for C5: a non-PDF and a missing file are skipped with their
outcomes, and the non-PDF does not disturb the adjacent merged file. -/
theorem per_file_recovery_witness :
    classifyFile sampleFS "notes.txt" = .SkippedNotPdf
      ∧ classifyFile sampleFS "missing.pdf" = .SkippedNotFound
      ∧ (merge_pdfs sampleFS ["notes.txt", "a.pdf"] "out.pdf" false).result.outcomes =
          [.SkippedNotPdf, .Merged 2] := by
  have h1 := per_file_recovery sampleFS ["notes.txt", "a.pdf"] "out.pdf" false "notes.txt"
  have h2 := per_file_recovery sampleFS ["notes.txt", "a.pdf"] "out.pdf" false "missing.pdf"
  refine ⟨h1.2.2.1 (by rfl) (by rfl), h2.2.1 (by rfl), ?_⟩
  rw [h1.1]
  decide

/-- C6: on every execution of `merge_pdfs` — success, the no-valid-files
early return, and both output-write failure modes — the accumulating writer
is closed exactly once. -/
theorem close_exactly_once (fs : FS) (paths : List String) (out : String) (s : Bool) :
    (merge_pdfs fs paths out s).closeCount = 1 :=
  merge_closeCount fs paths out s

/-- C7: `find_pdfs_in_directory` fails with `DirectoryNotFound` when the
path is not a directory, and otherwise returns exactly the immediate
entries whose names end in `.pdf` case-insensitively, joined to the
directory, in the directory's enumeration order. -/
theorem discover_pdfs_spec (dfs : DirFS) (d : String) :
    (dfs.isDir d = false → find_pdfs_in_directory dfs d = .error .DirectoryNotFound)
    ∧ (dfs.isDir d = true →
        find_pdfs_in_directory dfs d =
          .ok (((dfs.listdir d).filter lowerEndsWithPdf).map (joinPath d))) := by
  constructor
  · intro h
    simp [find_pdfs_in_directory, h]
  · intro h
    simp only [find_pdfs_in_directory, h, Bool.not_true, Bool.false_eq_true, if_false]
    rw [discover_foldl]
    simp

/-- Witness for C7: scanning `docs` keeps `b.PDF` and `a.pdf` in enumeration
order and drops `x.txt`; a non-directory fails. -/
theorem discover_pdfs_spec_witness :
    find_pdfs_in_directory sampleDir "docs" = .ok ["docs/b.PDF", "docs/a.pdf"]
      ∧ find_pdfs_in_directory sampleDir "elsewhere" = .error .DirectoryNotFound := by
  have h1 := (discover_pdfs_spec sampleDir "docs").2 (by rfl)
  have h2 := (discover_pdfs_spec sampleDir "elsewhere").1 (by rfl)
  refine ⟨?_, h2⟩
  rw [h1]
  have h3 : ((sampleDir.listdir "docs").filter lowerEndsWithPdf).map (joinPath "docs")
      = ["docs/b.PDF", "docs/a.pdf"] := by decide
  rw [h3]

/-- C8: running the merge again with `sort_files = true` on the list the
first call left behind (already natural-sorted in place) reproduces the
first run exactly — same outcomes, same page order, same everything. -/
theorem merge_sorted_idempotent (fs : FS) (paths : List String) (out : String) :
    merge_pdfs fs (merge_pdfs fs paths out true).finalInputPaths out true =
      merge_pdfs fs paths out true := by
  rw [merge_finalInputPaths]
  have hs : mergeOrder (mergeOrder paths true) true = mergeOrder paths true := by
    simp only [mergeOrder, if_true, sortNat]
    exact List.Sorted.insertionSort_eq (List.sorted_insertionSort natLe paths)
  simp only [merge_pdfs, hs]

/-- C9: `list.sort` mutates the caller's list: after a call with
`sort_files = true` the caller's `input_paths` is the natural-sorted list,
and after a call with `sort_files = false` it is unchanged. -/
theorem sort_in_place_effect (fs : FS) (paths : List String) (out : String) :
    (merge_pdfs fs paths out true).finalInputPaths = sortNat paths
    ∧ (merge_pdfs fs paths out false).finalInputPaths = paths := by
  constructor <;> simpa [mergeOrder] using merge_finalInputPaths fs paths out _

/-- C10: the output write is not atomic: when at least one file merged and
serialization fails after the open, the run reports failure yet the output
path has been created or truncated; only the no-valid-files early return
guarantees the output path untouched. -/
theorem write_failure_not_atomic (fs : FS) (paths : List String) (out : String)
    (s : Bool) :
    (mergedList fs (mergeOrder paths s) ≠ [] → fs.write out = .writeFails →
      (merge_pdfs fs paths out s).result.success = false
        ∧ (merge_pdfs fs paths out s).outputEffect = .clobbered)
    ∧ (mergedList fs (mergeOrder paths s) = [] →
        (merge_pdfs fs paths out s).outputEffect = .untouched) := by
  constructor
  · intro hne hw
    constructor
    · have := (merge_success_iff fs paths out s).not.mpr (by simp [hw])
      simpa using this
    · exact merge_effect_writeFails fs paths out s hne hw
  · exact merge_effect_untouched fs paths out s

/-- Witness for C10: one good input plus a failing serialization leaves a
clobbered output file and a failed run. -/
theorem write_failure_not_atomic_witness :
    (merge_pdfs sampleFSWriteFails ["a.pdf"] "out.pdf" false).result.success = false
      ∧ (merge_pdfs sampleFSWriteFails ["a.pdf"] "out.pdf" false).outputEffect =
          .clobbered :=
  (write_failure_not_atomic sampleFSWriteFails ["a.pdf"] "out.pdf" false).1
    (by decide) (by rfl)

end PdfMerge
